import Mathlib

/-!
Verification development for the pyetl table-extraction core.

The definitions below are a shallow embedding of the Python sources:

* `src/src/domain/services/excel_processor.py` (ExcelProcessorService)
* `src/src/business_rules/accounts_rules.py` (AccountsBusinessRules)
* `src/src/excel_parser.py` (ExcelParser)
* `src/src/validator.py` (Validator) and `src/main.py` (ETLPipeline validation)
* `src/src/domain/strategies/strategy_factory.py` (ExtractionStrategyFactory)
* `src/src/domain/entities/rate.py` (Rate)

Python strings are embedded as `List Char`, numbers as `ℚ`, fallible code as
`Option`/`Except Unit` (an `Except.error ()` marks an uncaught Python
exception).  Regular expressions used by the sources are embedded by
equivalent explicit matching functions, noted at each definition.
-/

namespace PyEtl

/-- ASCII lower-casing of a single character.  Embeds the effect of the
Python `str.lower` method on the ASCII range; characters outside `A`-`Z`
(including accented vowels appearing in the Spanish keywords, which the
sources only ever write in lower case) are left unchanged. -/
def lowerChar (c : Char) : Char :=
  match c with
  | 'A' => 'a' | 'B' => 'b' | 'C' => 'c' | 'D' => 'd' | 'E' => 'e' | 'F' => 'f'
  | 'G' => 'g' | 'H' => 'h' | 'I' => 'i' | 'J' => 'j' | 'K' => 'k' | 'L' => 'l'
  | 'M' => 'm' | 'N' => 'n' | 'O' => 'o' | 'P' => 'p' | 'Q' => 'q' | 'R' => 'r'
  | 'S' => 's' | 'T' => 't' | 'U' => 'u' | 'V' => 'v' | 'W' => 'w' | 'X' => 'x'
  | 'Y' => 'y' | 'Z' => 'z'
  | c => c

/-- Embedding of `str.lower`. -/
def pyLower (l : List Char) : List Char := l.map lowerChar

/-- Embedding of `str.strip` (drop leading and trailing whitespace). -/
def pyStrip (l : List Char) : List Char :=
  ((l.dropWhile Char.isWhitespace).reverse.dropWhile Char.isWhitespace).reverse

/-- Numeric value of a digit string (most significant digit first). -/
def digitsVal (l : List Char) : ℕ := l.foldl (fun a c => 10 * a + (c.toNat - 48)) 0

/-- Apply an optional leading minus sign. -/
def mkSign (neg : Bool) (q : ℚ) : ℚ := if neg then -q else q

/-- Embedding of the Python `float`/`Decimal` constructors on the character
set reaching them in this code base (digits, at most one dot, an optional
sign): `none` models a raised `ValueError`/`InvalidOperation`.  Accepted
shapes are `[sign] digits`, `[sign] digits "." digits`, `[sign] digits "."`
and `[sign] "." digits`, exactly the shapes both constructors accept on
strings made of signs, digits and dots. -/
def parseDecString (l : List Char) : Option ℚ :=
  let signSplit : Bool × List Char :=
    match l with
    | '-' :: r => (true, r)
    | '+' :: r => (false, r)
    | r => (false, r)
  let neg := signSplit.1
  let body := signSplit.2
  let ip := body.takeWhile Char.isDigit
  let rest := body.dropWhile Char.isDigit
  match rest with
  | [] => if ip = [] then none else some (mkSign neg (digitsVal ip))
  | '.' :: fr =>
    if fr.all Char.isDigit ∧ (ip ≠ [] ∨ fr ≠ []) then
      some (mkSign neg (mkRat (digitsVal ip * 10 ^ fr.length + digitsVal fr) (10 ^ fr.length)))
    else none
  | _ => none

/-- Characters kept by the cleanup `re.sub(r'[^\d.,\-]', '', value_str)` in
`parse_colombian_number`. -/
def keepNumChar (c : Char) : Bool := c.isDigit || c == '.' || c == ',' || c == '-'

/-- Embedding of `ExcelProcessorService.parse_colombian_number`
(`src/src/domain/services/excel_processor.py`).  The source wraps its body in
`try ... except (ValueError, TypeError, ArithmeticError): return None`;
the embedding therefore folds the exceptions of the `Decimal` constructor
into the `none` result of `parseDecString`. -/
def parse_colombian_number (value : List Char) : Option ℚ :=
  if value = [] ∨ pyStrip value = [] then none
  else
    let value_str := (pyStrip value).filter keepNumChar
    if value_str = [] then none
    else if value_str.contains ',' then
      match value_str.splitOn ',' with
      | [integer_part, decimal_part] =>
        parseDecString ((integer_part.filter fun c => !(c == '.')) ++ '.' :: decimal_part)
      | _ => none
    else
      let dot_parts := value_str.splitOn '.'
      if 1 < dot_parts.length then
        let last_part := dot_parts.getLastD []
        if last_part.length ≤ 2 ∧ 2 < dot_parts.length then
          parseDecString (dot_parts.dropLast.flatten ++ '.' :: last_part)
        else
          parseDecString (value_str.filter fun c => !(c == '.'))
      else parseDecString value_str

/-- Sanity check: a single 3-digit group after a dot is a thousands
separator for `parse_colombian_number`. -/
theorem parse_colombian_number_thousands :
    parse_colombian_number "8.990".data = some 8990 := by decide

/-- Sanity check: full Colombian format with a comma decimal part. -/
theorem parse_colombian_number_full :
    parse_colombian_number "1.234.567,89".data = some (mkRat 123456789 100) := by decide

/-- Sanity check: a lone comma is the decimal separator. -/
theorem parse_colombian_number_comma :
    parse_colombian_number "123,45".data = some (mkRat 12345 100) := by decide

/-- Sanity check: a multi-group integer with no comma concatenates all
groups. -/
theorem parse_colombian_number_multigroup :
    parse_colombian_number "1.234.567".data = some 1234567 := by decide

/-- Greedy embedding of the regex tail `(?:[.,]\d+)*`: consume as many
separator-plus-digits groups as possible (nothing follows the group in the
pattern `(\d+(?:[.,]\d+)*)`, so the greedy scan is exact). -/
def groupsTailFuel : ℕ → List Char → List Char
  | 0, _ => []
  | _ + 1, [] => []
  | _ + 1, [_] => []
  | fuel + 1, c :: d :: rest =>
    if (c == '.' || c == ',') && d.isDigit then
      c :: d :: (rest.takeWhile Char.isDigit ++ groupsTailFuel fuel (rest.dropWhile Char.isDigit))
    else []

/-- Fuel instantiation of `groupsTailFuel`: every iteration consumes at
least two characters, so a fuel equal to the length is never exhausted. -/
def groupsTail (l : List Char) : List Char := groupsTailFuel l.length l

/-- Embedding of `re.search(r'(\d+(?:[.,]\d+)*)', cleaned)` in
`AccountsBusinessRules._extract_numeric_value`: the match starts at the
first digit and greedily extends over separator-delimited digit groups. -/
def searchNumber : List Char → Option (List Char)
  | [] => none
  | c :: rest =>
    if c.isDigit then
      some ((c :: rest).takeWhile Char.isDigit ++
        groupsTail ((c :: rest).dropWhile Char.isDigit))
    else searchNumber rest

/-- Embedding of `AccountsBusinessRules._extract_numeric_value`
(`src/src/business_rules/accounts_rules.py`).  The source calls the Python
`float` constructor without a surrounding `try`, so a `ValueError` there is
an uncaught exception, modeled as `Except.error ()`. -/
def extract_numeric_value (text : List Char) : Except Unit (Option ℚ) :=
  let cleaned := pyStrip ((pyStrip text).filter fun c => !(c == '$'))
  if pyLower cleaned = "desde 0".data ∨ pyLower cleaned = "0".data then .ok (some 0)
  else
    match searchNumber cleaned with
    | none => .ok none
    | some number_str =>
      let toExc : Option ℚ → Except Unit (Option ℚ) := fun o =>
        match o with
        | some q => .ok (some q)
        | none => .error ()
      if number_str.contains ',' then
        if number_str.contains '.' then
          let parts := number_str.splitOn ','
          let integer_part := (parts.headD []).filter fun c => !(c == '.')
          let decimal_part := (parts.drop 1).headD []
          toExc (parseDecString (integer_part ++ '.' :: decimal_part))
        else
          toExc (parseDecString (number_str.map fun c => if c == ',' then '.' else c))
      else if number_str.contains '.' then
        let parts := number_str.splitOn '.'
        if parts.length = 2 ∧ ((parts.drop 1).headD []).length = 3 then
          toExc (parseDecString (number_str.filter fun c => !(c == '.')))
        else
          toExc (parseDecString number_str)
      else toExc (parseDecString number_str)

deriving instance DecidableEq for Except

/-- Embedding of substring containment, the Python `in` operator on
strings. -/
def containsSub (l sub : List Char) : Bool :=
  match l with
  | [] => sub.isPrefixOf ([] : List Char)
  | _ :: t => sub.isPrefixOf l || containsSub t sub

/-- Consume a literal prefix, returning the remainder on success. -/
def dropLit (lit l : List Char) : Option (List Char) :=
  if lit.isPrefixOf l then some (l.drop lit.length) else none

/-- Embedding of the suffix `\$?(\d+(?:[.,]\d+)?)\s*por` of the conditional
rate pattern, tried at a fixed position: optional dollar sign, a digit group
with at most one separator-delimited decimal group, optional whitespace and
the literal `por`.  Returns the captured second group.  The greedy digit
scans are exact because no shorter choice can let a later literal match (a
digit is never a separator, whitespace or `p`). -/
def tryTailAt (l : List Char) : Option (List Char) :=
  let l1 := match l with
    | '$' :: t => t
    | t => t
  let d := l1.takeWhile Char.isDigit
  if d = [] then none
  else
    let r := l1.dropWhile Char.isDigit
    let decSplit : List Char × List Char :=
      match r with
      | c :: t =>
        if (c == '.' || c == ',') && (t.headD 'x').isDigit then
          (c :: t.takeWhile Char.isDigit, t.dropWhile Char.isDigit)
        else ([], r)
      | [] => ([], [])
    let r2 := decSplit.2.dropWhile Char.isWhitespace
    if "por".data.isPrefixOf r2 then some (d ++ decSplit.1) else none

/-- Embedding of the lazy `.*?` before the amount in the conditional rate
pattern: try the tail match at each successive position, earliest first. -/
def condTailSearch : List Char → Option (List Char)
  | [] => tryTailAt []
  | l@(_ :: t) =>
    match tryTailAt l with
    | some g => some g
    | none => condTailSearch t

/-- Embedding of a match attempt of the conditional rate pattern
`(\d+)\s+incluidos?\s+sin\s+costo.*?\$?(\d+(?:[.,]\d+)?)\s*por` at a fixed
start position (on an already lower-cased string, embedding
`re.IGNORECASE`).  Returns the first captured number and the second
captured group. -/
def condMatchAt (l : List Char) : Option (ℕ × List Char) :=
  let d1 := l.takeWhile Char.isDigit
  if d1 = [] then none
  else
    let r1 := l.dropWhile Char.isDigit
    if r1.takeWhile Char.isWhitespace = [] then none
    else
      match dropLit "incluido".data (r1.dropWhile Char.isWhitespace) with
      | none => none
      | some r3 =>
        let r4 := match r3 with
          | 's' :: t => t
          | t => t
        if r4.takeWhile Char.isWhitespace = [] then none
        else
          match dropLit "sin".data (r4.dropWhile Char.isWhitespace) with
          | none => none
          | some r6 =>
            if r6.takeWhile Char.isWhitespace = [] then none
            else
              match dropLit "costo".data (r6.dropWhile Char.isWhitespace) with
              | none => none
              | some r8 =>
                match condTailSearch r8 with
                | some g2 => some (digitsVal d1, g2)
                | none => none

/-- Embedding of `re.search(conditional_pattern, rate_str, re.IGNORECASE)`:
try a match at each start position, leftmost first. -/
def condSearchAux : List Char → Option (ℕ × List Char)
  | [] => condMatchAt []
  | l@(_ :: t) =>
    match condMatchAt l with
    | some r => some r
    | none => condSearchAux t

/-- Search the conditional rate pattern in a raw cell string; lower-casing
the haystack embeds `re.IGNORECASE` (the captured groups contain only
digits and separators, which lower-casing fixes). -/
def condSearch (s : List Char) : Option (ℕ × List Char) := condSearchAux (pyLower s)

/-- Raw cell values as seen by `AccountsBusinessRules.parse_rate_value`:
Python `None`, a float `NaN`, a number, or a string. -/
inductive CellValue where
  | none
  | nan
  | num (q : ℚ)
  | str (s : List Char)
deriving DecidableEq

/-- Result dictionaries of `AccountsBusinessRules.parse_rate_value`, one
constructor per `type` tag the source can emit, carrying the same payload
fields. -/
inductive RateValue where
  | not_applicable (value : ℚ)
  | fixed (value : ℚ)
  | conditional (included_free : ℕ) (additional_cost : Option ℚ)
  | unlimited (value : ℚ)
  | text (value : List Char)
deriving DecidableEq

/-- Embedding of `AccountsBusinessRules.parse_rate_value`
(`src/src/business_rules/accounts_rules.py`).  `Except.error ()` marks the
uncaught `ValueError` that `_extract_numeric_value` can raise. -/
def parse_rate_value (rate_value : CellValue) : Except Unit RateValue :=
  match rate_value with
  | .none => .ok (.not_applicable 0)
  | .nan => .ok (.not_applicable 0)
  | .num q => .ok (.fixed q)
  | .str s =>
    let rate_str := pyStrip s
    if pyLower rate_str = "no aplica".data ∨ pyLower rate_str = "no".data ∨
        pyLower rate_str = "n/a".data ∨ pyLower rate_str = [] then
      .ok (.not_applicable 0)
    else
      match condSearch rate_str with
      | some ng =>
        match extract_numeric_value ng.2 with
        | .error e => .error e
        | .ok additional_cost => .ok (.conditional ng.1 additional_cost)
      | none =>
        if containsSub (pyLower rate_str) "ilimitado".data ||
            containsSub (pyLower rate_str) "unlimited".data ||
            containsSub (pyLower rate_str) "incluido".data then
          .ok (.unlimited 0)
        else
          match extract_numeric_value rate_str with
          | .error e => .error e
          | .ok (some v) => .ok (.fixed v)
          | .ok none => .ok (.text rate_str)

/-- Sanity check: the accounts extractor on a single 3-digit group. -/
theorem extract_numeric_value_thousands :
    extract_numeric_value "8.990".data = .ok (some 8990) := by decide

/-- Sanity check: the accounts extractor treats a non-3-digit trailing
group as a decimal part. -/
theorem extract_numeric_value_decimal :
    extract_numeric_value "8.5".data = .ok (some (mkRat 85 10)) := by decide

/-- Sanity check: the accounts extractor on the full Colombian format. -/
theorem extract_numeric_value_full :
    extract_numeric_value "1.234.567,89".data = .ok (some (mkRat 123456789 100)) := by
  decide

/-- Sanity check: the accounts extractor with a lone comma decimal
separator. -/
theorem extract_numeric_value_comma :
    extract_numeric_value "123,45".data = .ok (some (mkRat 12345 100)) := by decide

/-- Claim C1: the claim states that both numeric-extraction implementations
remove dots as thousands separators for every dotted digit-group string and
that the single-dot string `8.5` yields `8.5` in both.  The code differs:
`parse_colombian_number` only treats the last dot as a decimal point when
there are at least two dots, so `8.5` yields `85`; and
`_extract_numeric_value` reaches `float("1.234.567")` for two or more
groups, raising an uncaught `ValueError` instead of returning `1234567`. -/
theorem claim_C1_code_divergence :
    parse_colombian_number "8.5".data = some 85 ∧
      extract_numeric_value "1.234.567".data = Except.error () := by decide

/-- Claim C2: the claim states `parse_rate_value` never raises; on the
string `1.234.567` the numeric-extraction helper matches the token and then
calls `float("1.234.567")`, which raises an uncaught `ValueError`, so the
run aborts instead of producing a `Text` result. -/
theorem claim_C2_raises :
    parse_rate_value (.str "1.234.567".data) = Except.error () := by decide

/-- Claim C6: parsing the string
`3 incluidos sin costo. $7.510 por transferencia adicional` yields a
conditional rate with 3 included free and an additional cost of 7510. -/
theorem claim_C6_conditional_parse :
    parse_rate_value
        (.str "3 incluidos sin costo. $7.510 por transferencia adicional".data) =
      Except.ok (.conditional 3 (some 7510)) := by decide

/-- Rate type tags, the `RateType` enum of
`src/src/domain/entities/rate.py`. -/
inductive RateType where
  | fixed
  | percentage
  | conditional
  | unlimited
deriving DecidableEq

/-- The frozen `Rate` dataclass of `src/src/domain/entities/rate.py`. -/
structure Rate where
  type : RateType
  value : ℚ
  currency : Option (List Char)
  included_free : Option ℤ
  additional_cost : Option ℚ
deriving DecidableEq

/-- Embedding of `Rate` construction: the frozen dataclass runs
`__post_init__` on every construction, raising `ValueError` (modeled as
`Except.error ()`) when a conditional rate misses a sub-field or when the
value is negative. -/
def Rate.make (type : RateType) (value : ℚ) (currency : Option (List Char))
    (included_free : Option ℤ) (additional_cost : Option ℚ) : Except Unit Rate :=
  if type = .conditional ∧ (included_free = none ∨ additional_cost = none) then
    .error ()
  else if value < 0 then .error ()
  else .ok ⟨type, value, currency, included_free, additional_cost⟩

/-- Embedding of the `Rate.fixed` classmethod. -/
def Rate.fixedRate (value : ℚ) (currency : Option (List Char)) : Except Unit Rate :=
  Rate.make .fixed value currency none none

/-- Embedding of the `Rate.percentage` classmethod. -/
def Rate.percentageRate (value : ℚ) : Except Unit Rate :=
  Rate.make .percentage value none none none

/-- Embedding of the `Rate.conditional` classmethod. -/
def Rate.conditionalRate (included_free : ℤ) (additional_cost : ℚ)
    (currency : Option (List Char)) : Except Unit Rate :=
  Rate.make .conditional 0 currency (some included_free) (some additional_cost)

/-- Embedding of the `Rate.unlimited` classmethod. -/
def Rate.unlimitedRate : Except Unit Rate :=
  Rate.make .unlimited 0 none none none

/-- Python `str()` image of an optional cell value, as used by
`create_rate_from_value` (the `None` literal prints as `None`). -/
def strOfOpt (value : Option (List Char)) : List Char :=
  match value with
  | none => "None".data
  | some s => s

/-- Embedding of `ExcelProcessorService.detect_rate_type`
(`src/src/domain/services/excel_processor.py`).  A non-`None` input value
is represented by its Python `str()` image: every use the source makes of
the value goes through `str(value)`, so this representation is lossless
here and in `create_rate_from_value`. -/
def detect_rate_type (value : Option (List Char)) (column_name : List Char) : RateType :=
  match value with
  | none => .unlimited
  | some s =>
    let value_str := pyStrip (pyLower s)
    if containsSub value_str "unlimited".data || containsSub value_str "ilimitado".data then
      .unlimited
    else if value_str.contains '%' || containsSub (pyLower column_name) "e.a.".data then
      .percentage
    else if containsSub value_str "gratis".data && value_str.contains '+' then
      .conditional
    else
      match parse_colombian_number value_str with
      | some parsed =>
        if parsed = 0 then .unlimited
        else if parsed < 1 then .percentage
        else .fixed
      | none => .fixed

/-- Embedding of `ExcelProcessorService.create_rate_from_value`
(`src/src/domain/services/excel_processor.py`). -/
def create_rate_from_value (value : Option (List Char)) (column_name : List Char) :
    Except Unit Rate :=
  let rate_type := detect_rate_type value column_name
  if rate_type = .unlimited then Rate.unlimitedRate
  else
    let parsed_value := (parse_colombian_number (strOfOpt value)).getD 0
    if rate_type = .percentage then Rate.percentageRate parsed_value
    else if rate_type = .fixed then
      Rate.fixedRate parsed_value (if 1000 < parsed_value then some "COP".data else none)
    else Rate.fixedRate parsed_value none

/-- Claim C9: every successfully constructed `Rate` has a nonnegative value
and, when conditional, carries both sub-fields; any construction violating
either condition fails with `ValueError` at construction time.  All
constructions (the four classmethods and `from_dict`) go through the frozen
dataclass constructor and hence through `__post_init__`, embedded by
`Rate.make`. -/
theorem claim_C9_rate_invariant :
    (∀ t v c f a r, Rate.make t v c f a = Except.ok r →
        0 ≤ r.value ∧
          (r.type = RateType.conditional →
            r.included_free ≠ none ∧ r.additional_cost ≠ none)) ∧
      (∀ t v c f a, (v < 0 ∨ (t = RateType.conditional ∧ (f = none ∨ a = none))) →
        Rate.make t v c f a = Except.error ()) := by
  constructor
  · intro t v c f a r h
    unfold Rate.make at h
    split at h
    · exact absurd h (by simp)
    · split at h
      · exact absurd h (by simp)
      · rename_i hcond hneg
        cases h
        refine ⟨le_of_not_lt hneg, fun ht => ?_⟩
        simp only [not_and_or, not_or] at hcond
        rcases hcond with hc | hfa
        · exact absurd ht hc
        · push_neg at hfa
          exact ⟨hfa.1, hfa.2⟩
  · intro t v c f a h
    unfold Rate.make
    rcases h with hv | ⟨ht, hfa⟩
    · by_cases hc : t = RateType.conditional ∧ (f = none ∨ a = none)
      · rw [if_pos hc]
      · rw [if_neg hc, if_pos hv]
    · rw [if_pos ⟨ht, hfa⟩]

/-- Witness for C9: a concrete successful construction satisfies the
invariant, and a concrete conditional construction missing its sub-fields
fails. -/
theorem claim_C9_rate_invariant_witness :
    (0 ≤ (5 : ℚ) ∧
        (RateType.fixed = RateType.conditional →
          (none : Option ℤ) ≠ none ∧ (none : Option ℚ) ≠ none)) ∧
      Rate.make RateType.conditional 0 none none none = Except.error () := by
  constructor
  · exact claim_C9_rate_invariant.1 RateType.fixed 5 none none none
      ⟨RateType.fixed, 5, none, none, none⟩ (by decide)
  · exact claim_C9_rate_invariant.2 RateType.conditional 0 none none none
      (Or.inr ⟨rfl, Or.inl rfl⟩)

/-- Claim C10 counterexample: the cell value `5%` parses to 5, which is
`>= 1`, yet `create_rate_from_value` returns a percentage rate, not a fixed
rate: the textual `%` check runs before any magnitude comparison, so the
rate type is not decided purely by magnitude. -/
theorem claim_C10_counterexample :
    parse_colombian_number (strOfOpt (some "5%".data)) = some 5 ∧ (1 : ℚ) ≤ 5 ∧
      create_rate_from_value (some "5%".data) [] =
        Except.ok ⟨RateType.percentage, 5, none, none, none⟩ ∧
      RateType.percentage ≠ RateType.fixed := by decide

/-- Claim C10 as amended: for a string cell whose lower-cased stripped form
contains none of the textual sentinels (`unlimited`, `ilimitado`, `%`, and
not both `gratis` and `+`), with the default empty column context, and
whose Colombian-number parse is `q`, the rate is decided by magnitude:
`q = 0` yields an unlimited rate, `0 < q < 1` a percentage rate, and
`1 ≤ q` a fixed rate whose currency is `COP` exactly when `q > 1000`.  The
two parse hypotheses instantiate the same parser at the raw and at the
lower-cased stripped string, the two forms the source parses. -/
theorem claim_C10_amended (s : List Char) (q : ℚ)
    (hU : containsSub (pyStrip (pyLower s)) "unlimited".data = false)
    (hI : containsSub (pyStrip (pyLower s)) "ilimitado".data = false)
    (hP : (pyStrip (pyLower s)).contains '%' = false)
    (hG : ¬(containsSub (pyStrip (pyLower s)) "gratis".data = true ∧
        (pyStrip (pyLower s)).contains '+' = true))
    (h1 : parse_colombian_number (pyStrip (pyLower s)) = some q)
    (h2 : parse_colombian_number s = some q) :
    (q = 0 → create_rate_from_value (some s) [] =
        Except.ok ⟨RateType.unlimited, 0, none, none, none⟩) ∧
      (0 < q → q < 1 → create_rate_from_value (some s) [] =
        Except.ok ⟨RateType.percentage, q, none, none, none⟩) ∧
      (1 ≤ q → create_rate_from_value (some s) [] =
        Except.ok ⟨RateType.fixed, q,
          if 1000 < q then some "COP".data else none, none, none⟩) := by
  have hplus : (containsSub (pyStrip (pyLower s)) "gratis".data &&
      (pyStrip (pyLower s)).contains '+') = false := by
    by_cases hg : containsSub (pyStrip (pyLower s)) "gratis".data = true
    · by_cases h : (pyStrip (pyLower s)).contains '+' = true
      · exact absurd ⟨hg, h⟩ hG
      · rw [Bool.not_eq_true] at h
        rw [h, Bool.and_false]
    · rw [Bool.not_eq_true] at hg
      rw [hg, Bool.false_and]
  have hea : containsSub (pyLower ([] : List Char)) "e.a.".data = false := by decide
  have hdet : detect_rate_type (some s) [] =
      (if q = 0 then RateType.unlimited
       else if q < 1 then RateType.percentage
       else RateType.fixed) := by
    unfold detect_rate_type
    simp only [hU, hI, hP, hea, hplus, h1, Bool.or_self, Bool.or_false, Bool.false_or,
      Bool.false_eq_true, if_false]
  refine ⟨fun h0 => ?_, fun hlo hhi => ?_, fun hge => ?_⟩
  · unfold create_rate_from_value
    rw [hdet, if_pos h0]
    simp only [if_pos rfl]
    rfl
  · have hne : ¬(q = 0) := fun h => absurd (h ▸ hlo) (lt_irrefl 0)
    unfold create_rate_from_value
    rw [hdet, if_neg hne, if_pos hhi]
    rw [if_neg (show ¬(RateType.percentage = RateType.unlimited) by decide)]
    simp only [strOfOpt, h2, Option.getD_some]
    simp only [if_true]
    unfold Rate.percentageRate Rate.make
    rw [if_neg (by decide), if_neg (not_lt.mpr (le_of_lt hlo))]
  · have hne : ¬(q = 0) := fun h => absurd hge (by rw [h]; norm_num)
    have hnlt : ¬(q < 1) := not_lt.mpr hge
    unfold create_rate_from_value
    rw [hdet, if_neg hne, if_neg hnlt]
    rw [if_neg (show ¬(RateType.fixed = RateType.unlimited) by decide)]
    simp only [strOfOpt, h2, Option.getD_some]
    rw [if_neg (show ¬(RateType.fixed = RateType.percentage) by decide)]
    simp only [if_true]
    unfold Rate.fixedRate Rate.make
    rw [if_neg (by decide),
      if_neg (not_lt.mpr (le_trans (by norm_num) hge))]

/-- Witness for the amended C10: the concrete cell `0,5` parses to one
half, is sentinel-free, and yields a percentage rate. -/
theorem claim_C10_amended_witness :
    (0 : ℚ) < mkRat 1 2 ∧ mkRat 1 2 < 1 ∧
      create_rate_from_value (some "0,5".data) [] =
        Except.ok ⟨RateType.percentage, mkRat 1 2, none, none, none⟩ := by
  refine ⟨by decide, by decide, ?_⟩
  exact (claim_C10_amended "0,5".data (mkRat 1 2) (by decide) (by decide) (by decide)
    (by decide) (by decide) (by decide)).2.1 (by decide) (by decide)

/-- Normalization `ExcelParser._is_header_row` applies to each cell:
`str(val).lower().strip()` for a non-NaN cell and the empty string for NaN.
A cell is represented by its Python `str()` image, `none` marking NaN. -/
def cellNorm (c : Option (List Char)) : List Char :=
  match c with
  | none => []
  | some s => pyStrip (pyLower s)

/-- Header keyword list of `ExcelParser._is_header_row`
(`src/src/excel_parser.py`). -/
def header_patterns : List (List Char) :=
  ["tarifa".data, "plan".data, "valor".data, "aplica".data, "frecuencia".data,
    "disclaimer".data]

/-- Plan-name literals of `ExcelParser._is_header_row`. -/
def plan_patterns : List (List Char) :=
  ["plan g-zero".data, "plan puls".data, "plan premier".data]

/-- Embedding of `ExcelParser._is_header_row` (`src/src/excel_parser.py`).
The source indexes `row_values[0]` and is only called on frames with at
least one column; the empty row is mapped to `false` here. -/
def is_header_row (row : List (Option (List Char))) : Bool :=
  let row_values := row.map cellNorm
  match row_values with
  | [] => false
  | v0 :: rest =>
    if v0 = "descripción".data then
      let header_count :=
        (rest.filter fun v => header_patterns.any fun p => containsSub v p).length
      let has_plan_patterns :=
        row_values.any fun v => plan_patterns.any fun p => containsSub v p
      decide (2 ≤ header_count) || has_plan_patterns
    else false

/-- Modelled from the spec sentence behind claim C3: a row is claimed to be
a header candidate when (its first cell, normalized, equals the description
sentinel AND at least two of the remaining cells contain a domain keyword)
OR any cell matches a plan-name literal.  Stated for comparison with the
source predicate `is_header_row`. -/
def headerRowClaim (row : List (Option (List Char))) : Bool :=
  let row_values := row.map cellNorm
  match row_values with
  | [] => false
  | v0 :: rest =>
    (decide (v0 = "descripción".data) &&
      decide (2 ≤ (rest.filter fun v =>
        header_patterns.any fun p => containsSub v p).length)) ||
      row_values.any fun v => plan_patterns.any fun p => containsSub v p

/-- Claim C3 counterexample: a row whose cells match plan-name literals but
whose first cell is not the description sentinel is claimed to be a header,
yet the source only consults the plan-name literals inside the
first-cell-is-description branch and returns false. -/
theorem claim_C3_counterexample :
    headerRowClaim [some "Plan Puls".data, some "Plan Premier".data] = true ∧
      is_header_row [some "Plan Puls".data, some "Plan Premier".data] = false := by
  decide

/-- Claim C3 as amended: a nonempty grid row is detected as a table header
row if and only if its first cell, lower-cased and trimmed, equals the
description sentinel AND (at least two of the remaining cells contain a
domain keyword OR any cell in the row matches a plan-name literal). -/
theorem claim_C3_amended (row : List (Option (List Char))) (hrow : row ≠ []) :
    is_header_row row = true ↔
      (row.map cellNorm).headD [] = "descripción".data ∧
        (2 ≤ (((row.map cellNorm).drop 1).filter fun v =>
            header_patterns.any fun p => containsSub v p).length ∨
          ((row.map cellNorm).any fun v =>
            plan_patterns.any fun p => containsSub v p) = true) := by
  cases row with
  | nil => exact absurd rfl hrow
  | cons c rest =>
    show is_header_row (c :: rest) = true ↔ _
    unfold is_header_row
    simp only [List.map_cons, List.headD_cons, List.drop_succ_cons, List.drop_zero]
    by_cases hd : cellNorm c = "descripción".data
    · rw [if_pos hd]
      simp only [hd, true_and, Bool.or_eq_true, decide_eq_true_eq, List.map_cons]
    · rw [if_neg hd]
      constructor
      · intro h
        exact absurd h (by simp)
      · intro h
        exact absurd h.1 hd

/-- Witness for the amended C3: a concrete description-plus-keywords row
satisfies both sides of the equivalence. -/
theorem claim_C3_amended_witness :
    is_header_row [some "Descripción".data, some "Tarifa".data, some "Plan".data] = true ↔
      (([some "Descripción".data, some "Tarifa".data, some "Plan".data].map
          cellNorm).headD [] = "descripción".data ∧
        (2 ≤ ((([some "Descripción".data, some "Tarifa".data,
              some "Plan".data].map cellNorm).drop 1).filter fun v =>
            header_patterns.any fun p => containsSub v p).length ∨
          (([some "Descripción".data, some "Tarifa".data,
              some "Plan".data].map cellNorm).any fun v =>
            plan_patterns.any fun p => containsSub v p) = true)) :=
  claim_C3_amended [some "Descripción".data, some "Tarifa".data, some "Plan".data]
    (by decide)

/-- Plan-type header mapping `ACCOUNTS_CONFIG['plan_types']`
(`src/src/config/accounts_config.py`). -/
def plan_types : List (List Char × List Char) :=
  [("PLAN G - ZERO PARA CUENTA MOVIL".data, "g_zero".data),
    ("PLAN PLUS PARA CUENTA MOVIL".data, "puls".data),
    ("PLAN PREMIER PARA CUENTA MÓVIL".data, "premier".data),
    ("VALOR (Sin IVA)".data, "standard_rate".data)]

/-- Embedding of `self.config['plan_types'].get(col, col)`. -/
def planTypesGet (col : List Char) : List Char :=
  match plan_types.find? fun p => p.1 == col with
  | some p => p.2
  | none => col

/-- Classification patterns for the `transfers` table type
(`ACCOUNTS_CONFIG['table_classification']`). -/
def transfers_patterns : List (List Char) :=
  ["enviar".data, "transferencia".data, "ach".data, "transfiya".data, "llaves".data]

/-- Classification keywords for the `transfers` table type. -/
def transfers_keywords : List (List Char) :=
  ["dinero".data, "cuentas".data, "bancos".data]

/-- Classification patterns for the `withdrawals` table type. -/
def withdrawals_patterns : List (List Char) :=
  ["retiro".data, "cajero".data, "oficina".data, "corresponsal".data]

/-- Classification keywords for the `withdrawals` table type. -/
def withdrawals_keywords : List (List Char) :=
  ["debito".data, "tarjeta".data, "medio".data]

/-- Slice of the table dictionary read by
`AccountsBusinessRules.classify_table_type`: the table name, the values of
the header-row mapping, and per data row the value of the description field
(`none` when the key is missing or its value is falsy, which the
comprehension guard `if row.get(description_field)` skips). -/
structure TableInfo where
  table_name : List Char
  header_row : List (List Char)
  data : List (Option (List Char))

/-- Embedding of `AccountsBusinessRules.classify_table_type`
(`src/src/business_rules/accounts_rules.py`).  The classification loop
iterates the config dictionary in insertion order and skips the
`mobile_plans` and `traditional_services` entries, leaving the `transfers`
and then the `withdrawals` pattern checks. -/
def classify_table_type (t : TableInfo) : List Char :=
  let table_name := pyLower t.table_name
  let column_names := t.header_row
  let plan_columns := column_names.map planTypesGet
  if ["g_zero".data, "puls".data, "premier".data].all
      (fun k => plan_columns.contains k) then
    "mobile_plans".data
  else if column_names.contains "VALOR (Sin IVA)".data then
    "traditional_services".data
  else
    let sample_descriptions := (t.data.take 3).filterMap fun d => d.map pyLower
    let text_to_check := table_name ++ ' ' :: List.intercalate " ".data sample_descriptions
    if (transfers_patterns.any fun p => containsSub text_to_check p) &&
        (transfers_keywords.any fun p => containsSub text_to_check p) then
      "transfers".data
    else if (withdrawals_patterns.any fun p => containsSub text_to_check p) &&
        (withdrawals_keywords.any fun p => containsSub text_to_check p) then
      "withdrawals".data
    else "unknown".data

/-- Claim C4: a table whose mapped header set contains all three
mobile-plan keys is classified `mobile_plans` regardless of its table name
or description cells: the structural check is the first test in
`classify_table_type`, before any keyword scanning. -/
theorem claim_C4_structural_first (t : TableInfo)
    (hg : "g_zero".data ∈ t.header_row.map planTypesGet)
    (hp : "puls".data ∈ t.header_row.map planTypesGet)
    (hm : "premier".data ∈ t.header_row.map planTypesGet) :
    classify_table_type t = "mobile_plans".data := by
  unfold classify_table_type
  have hall : (["g_zero".data, "puls".data, "premier".data].all
      fun k => (t.header_row.map planTypesGet).contains k) = true := by
    simp only [List.all_cons, List.all_nil, Bool.and_true, Bool.and_eq_true]
    refine ⟨List.elem_eq_true_of_mem hg, List.elem_eq_true_of_mem hp,
      List.elem_eq_true_of_mem hm⟩
  rw [if_pos hall]

/-- Witness for C4: a concrete table carrying the three mobile-plan column
headers and a withdrawal-flavored name (`retiro`) is still classified as
`mobile_plans`. -/
theorem claim_C4_structural_first_witness :
    classify_table_type
        ⟨"Tarifas_retiro cajero".data,
          ["DESCRIPCIÓN".data, "PLAN G - ZERO PARA CUENTA MOVIL".data,
            "PLAN PLUS PARA CUENTA MOVIL".data,
            "PLAN PREMIER PARA CUENTA MÓVIL".data],
          [some "retiro cajero propio".data]⟩ = "mobile_plans".data :=
  claim_C4_structural_first _ (by decide) (by decide) (by decide)

/-- Blank test used by the boundary detector:
`pd.notna(val) and str(val).strip()` holds for a non-NaN cell whose string
image has non-whitespace content. -/
def cellHasData (c : Option (List Char)) : Bool :=
  match c with
  | none => false
  | some s => !(pyStrip s).isEmpty

/-- Embedding of `DataFrame.dropna(how='all')` on a rectangular grid: keep
the rows having at least one non-NaN cell (a row with no columns is
all-NaN vacuously and is dropped, as pandas does). -/
def dropna_all (rows : List (List (Option (List Char)))) :
    List (List (Option (List Char))) :=
  rows.filter fun r => r.any fun c => c.isSome

/-- Index of the last header cell with data (0 when there is none), the
first loop of `ExcelParser._detect_table_boundaries`. -/
def lastColWithData (header : List (Option (List Char))) : ℕ :=
  header.enum.foldl (fun acc iv => if cellHasData iv.2 then iv.1 else acc) 0

/-- Embedding of `ExcelParser._detect_table_boundaries`
(`src/src/excel_parser.py`): locate the rightmost header column with data,
extend it by data found in later rows up to that bound plus one, and trim
every row to the final column range.  An empty frame (no rows, or no
columns on a rectangular grid) is returned unchanged as the source does. -/
def detect_table_boundaries (rows : List (List (Option (List Char)))) :
    List (List (Option (List Char))) :=
  match rows with
  | [] => []
  | header :: rest =>
    if header.length = 0 then header :: rest
    else
      let w := header.length
      let lcd := lastColWithData header
      let max_col := min (lcd + 1) (w - 1)
      let lcd2 := rest.foldl
        (fun acc row => row.enum.foldl
          (fun a iv => if iv.1 ≤ max_col ∧ cellHasData iv.2 then max a iv.1 else a)
          acc)
        lcd
      let final_col := min (lcd2 + 1) w
      (header :: rest).map (List.take (final_col + 1))

/-- Embedding of the retention decision of
`ExcelParser._create_table_from_section` (`src/src/excel_parser.py`): drop
all-NaN rows, discard the section when fewer than 4 rows remain
(`header + 3 data rows` minimum), trim to the detected boundaries, and
discard when the trimmed frame is empty.  After these checks the source
always builds and returns the table dictionary, so the embedding returns
the trimmed grid the dictionary is built from. -/
def create_table_from_section (df_section : List (List (Option (List Char)))) :
    Option (List (List (Option (List Char)))) :=
  let table_data := dropna_all df_section
  if table_data.length < 4 then none
  else
    let trimmed := detect_table_boundaries table_data
    if trimmed.length = 0 ∨ (trimmed.headD []).length = 0 then none
    else some trimmed

/-- Claim C5: on a rectangular section with at least one column, a segment
with 3 non-empty rows (header plus only 2 data rows) is discarded, while a
segment with 4 non-empty rows (header plus 3 data rows) is retained. -/
theorem claim_C5_min_rows (df_section : List (List (Option (List Char)))) (w : ℕ)
    (hrect : ∀ r ∈ df_section, r.length = w) (hw : 1 ≤ w) :
    ((dropna_all df_section).length = 3 →
        create_table_from_section df_section = none) ∧
      ((dropna_all df_section).length = 4 →
        (create_table_from_section df_section).isSome = true) := by
  constructor
  · intro h3
    unfold create_table_from_section
    rw [if_pos (by omega : (dropna_all df_section).length < 4)]
  · intro h4
    have hnlt : ¬((dropna_all df_section).length < 4) := by omega
    unfold create_table_from_section
    rw [if_neg hnlt]
    obtain ⟨hd, tl, heq⟩ : ∃ hd tl, dropna_all df_section = hd :: tl := by
      cases hcase : dropna_all df_section with
      | nil => rw [hcase] at h4; simp at h4
      | cons a b => exact ⟨a, b, rfl⟩
    have hmem : hd ∈ df_section :=
      List.mem_of_mem_filter (heq ▸ List.mem_cons_self hd tl)
    have hlen : hd.length = w := hrect hd hmem
    rw [heq]
    simp only [detect_table_boundaries]
    rw [if_neg (by omega : ¬(hd.length = 0))]
    simp only [List.map_cons, List.headD_cons, List.length_cons, List.length_take,
      List.length_map]
    rw [if_neg ?_]
    · rfl
    · push_neg
      constructor
      · omega
      · have hne : hd.length ≠ 0 := by omega
        simp [Nat.min_eq_zero_iff, hne]

/-- Witness for C5: a concrete 3-row section is discarded and a concrete
4-row section is retained. -/
theorem claim_C5_min_rows_witness :
    (dropna_all [[some "Descripción".data, some "Tarifa".data],
        [some "a".data, some "1".data], [some "b".data, some "2".data]]).length = 3 ∧
      create_table_from_section [[some "Descripción".data, some "Tarifa".data],
        [some "a".data, some "1".data], [some "b".data, some "2".data]] = none ∧
      (dropna_all [[some "Descripción".data, some "Tarifa".data],
        [some "a".data, some "1".data], [some "b".data, some "2".data],
        [some "c".data, some "3".data]]).length = 4 ∧
      (create_table_from_section [[some "Descripción".data, some "Tarifa".data],
        [some "a".data, some "1".data], [some "b".data, some "2".data],
        [some "c".data, some "3".data]]).isSome = true := by
  refine ⟨by decide, ?_, by decide, ?_⟩
  · exact (claim_C5_min_rows _ 2 (by decide) (by decide)).1 (by decide)
  · exact (claim_C5_min_rows _ 2 (by decide) (by decide)).2 (by decide)

/-- Indicator patterns of
`ExtractionStrategyFactory._business_line_indicators`
(`src/src/domain/strategies/strategy_factory.py`): every entry is either a
literal or two literals separated by `.*`, the only regex construct that
occurs there. -/
inductive SPat where
  | lit (s : List Char)
  | around (a b : List Char)

/-- Embedding of `re.search` for a pattern `a.*b`: some occurrence of `a`
is followed, at or after its end, by an occurrence of `b` (the regex dot
does not match newlines, which do not occur in sheet or file names). -/
def matchAround (a b : List Char) : List Char → Bool
  | [] => a.isPrefixOf ([] : List Char) && containsSub (List.drop a.length []) b
  | l@(_ :: t) =>
    (a.isPrefixOf l && containsSub (l.drop a.length) b) || matchAround a b t

/-- Embedding of `re.search(pattern, text)` returning whether a match
exists (a literal searches as a substring). -/
def spatMatch (p : SPat) (s : List Char) : Bool :=
  match p with
  | .lit a => containsSub s a
  | .around a b => matchAround a b s

/-- Indicator patterns for the `accounts` business line. -/
def accounts_indicators : List SPat :=
  [.lit "cuenta".data, .lit "tarifa".data, .lit "limite".data,
    .around "servicio".data "bancario".data, .lit "account".data,
    .lit "fee".data, .around "banking".data "service".data]

/-- Indicator patterns for the `loans` business line. -/
def loans_indicators : List SPat :=
  [.lit "credito".data, .lit "prestamo".data, .around "tasa".data "credito".data,
    .lit "cupo".data, .lit "credit".data, .lit "loan".data, .lit "lending".data]

/-- Embedding of the final selection step of `detect_business_line`:
`max(scores, key=scores.get)` walks the score dictionary in insertion order
(`accounts` first, then `loans`) and keeps the first strict maximum, so
`accounts` wins ties; a zero maximum falls back to `accounts`. -/
def pickLine (accounts_score loans_score : ℕ) : List Char :=
  if 0 < max accounts_score loans_score then
    (if loans_score ≤ accounts_score then "accounts".data else "loans".data)
  else "accounts".data

/-- Embedding of `ExtractionStrategyFactory.detect_business_line`
(`src/src/domain/strategies/strategy_factory.py`): every matching
(sheet name, pattern) pair adds one point to the pattern's business line,
every matching (filename, pattern) pair adds two. -/
def detect_business_line (sheet_names : List (List Char)) (filename : List Char) :
    List Char :=
  let sheetScores := sheet_names.foldl
    (fun s sn =>
      (s.1 + accounts_indicators.countP (fun p => spatMatch p (pyLower sn)),
        s.2 + loans_indicators.countP (fun p => spatMatch p (pyLower sn))))
    (0, 0)
  let scores :=
    if filename = [] then sheetScores
    else
      (sheetScores.1 +
          2 * accounts_indicators.countP (fun p => spatMatch p (pyLower filename)),
        sheetScores.2 +
          2 * loans_indicators.countP (fun p => spatMatch p (pyLower filename)))
  pickLine scores.1 scores.2

/-- Modelled from the spec sentence behind claim C8: one point per sheet
name matching any indicator pattern of the line, two points when the
filename matches any of them, highest score wins, ties and the all-zero
case fall back to the first-declared line. -/
def claimScore (pats : List SPat) (sheet_names : List (List Char))
    (filename : List Char) : ℕ :=
  (sheet_names.filter fun sn => pats.any fun p => spatMatch p (pyLower sn)).length +
    (if filename = [] then 0
     else if pats.any fun p => spatMatch p (pyLower filename) then 2 else 0)

/-- Modelled from the spec sentence behind claim C8: the claimed selection
procedure over the per-sheet scores. -/
def claim_detect_business_line (sheet_names : List (List Char))
    (filename : List Char) : List Char :=
  pickLine (claimScore accounts_indicators sheet_names filename)
    (claimScore loans_indicators sheet_names filename)

/-- Claim C8 counterexample: with sheets `cuenta tarifa limite`,
`prestamo`, `cupo` the claimed per-sheet scoring gives accounts 1 and loans
2, selecting `loans`, while the code scores one point per matching pattern
(the first sheet matches three accounts patterns), giving accounts 3 and
loans 2 and selecting `accounts`. -/
theorem claim_C8_counterexample :
    detect_business_line
        ["cuenta tarifa limite".data, "prestamo".data, "cupo".data] [] =
        "accounts".data ∧
      claim_detect_business_line
        ["cuenta tarifa limite".data, "prestamo".data, "cupo".data] [] =
        "loans".data := by decide

/-- Per-pattern-match score of a business line: the number of matching
(sheet, pattern) pairs plus twice the number of patterns matching the
filename. -/
def matchScore (pats : List SPat) (sheet_names : List (List Char))
    (filename : List Char) : ℕ :=
  (sheet_names.map fun sn => pats.countP fun p => spatMatch p (pyLower sn)).sum +
    (if filename = [] then 0
     else 2 * pats.countP fun p => spatMatch p (pyLower filename))

/-- Accumulating a pair of per-element counts by a left fold equals the
pair of summed counts. -/
theorem foldl_pair_add (f g : List Char → ℕ) (xs : List (List Char)) (a b : ℕ) :
    xs.foldl (fun s x => (s.1 + f x, s.2 + g x)) (a, b) =
      (a + (xs.map f).sum, b + (xs.map g).sum) := by
  induction xs generalizing a b with
  | nil => simp
  | cons x t ih => simp [ih, Nat.add_assoc]

/-- Claim C8 as amended: selection is score-based with one point per
matching (sheet name, pattern) pair and two points per pattern matching
the filename; the result is always `accounts` or `loans`, and it is
`loans` exactly when the loans score strictly exceeds the accounts score
(so ties and the all-zero case yield the first-declared `accounts`). -/
theorem claim_C8_amended (sheet_names : List (List Char)) (filename : List Char) :
    (detect_business_line sheet_names filename = "accounts".data ∨
        detect_business_line sheet_names filename = "loans".data) ∧
      (detect_business_line sheet_names filename = "loans".data ↔
        matchScore accounts_indicators sheet_names filename <
          matchScore loans_indicators sheet_names filename) := by
  have hfold := foldl_pair_add
    (fun sn => accounts_indicators.countP fun p => spatMatch p (pyLower sn))
    (fun sn => loans_indicators.countP fun p => spatMatch p (pyLower sn))
    sheet_names 0 0
  have hdet : detect_business_line sheet_names filename =
      pickLine (matchScore accounts_indicators sheet_names filename)
        (matchScore loans_indicators sheet_names filename) := by
    unfold detect_business_line matchScore
    rw [hfold]
    by_cases hfn : filename = []
    · simp [hfn]
    · simp [hfn]
  rw [hdet]
  set A := matchScore accounts_indicators sheet_names filename with hA
  set L := matchScore loans_indicators sheet_names filename with hL
  unfold pickLine
  by_cases hle : L ≤ A
  · rw [if_pos hle]
    have hnot : ¬(A < L) := not_lt.mpr hle
    constructor
    · split
      · exact Or.inl rfl
      · exact Or.inl rfl
    · constructor
      · intro h
        split at h
        · exact absurd h (by decide)
        · exact absurd h (by decide)
      · intro h
        exact absurd h hnot
  · push_neg at hle
    have h0 : 0 < max A L := lt_of_lt_of_le (Nat.lt_of_le_of_lt (Nat.zero_le A) hle)
      (le_max_right A L)
    rw [if_pos h0, if_neg (not_le.mpr hle)]
    exact ⟨Or.inr rfl, ⟨fun _ => hle, fun _ => rfl⟩⟩

/-- Validation rules dictionary (`VALIDATION_RULES` in `src/config.py`,
also consulted by `src/main.py`). -/
structure VRules where
  required_fields : List (List Char)
  max_description_length : ℕ
  valid_frequencies : List (List Char)
  valid_table_types : List (List Char)

/-- The concrete `VALIDATION_RULES` of `src/config.py`. -/
def VALIDATION_RULES : VRules :=
  ⟨["service_id".data, "description".data, "frequency".data], 200,
    ["monthly".data, "per_transaction".data, "one_time".data, "yearly".data,
      "unknown".data],
    ["mobile_plans".data, "transfers".data, "withdrawals".data,
      "traditional_services".data]⟩

/-- Issue dictionaries appended by `Validator` (`src/src/validator.py`),
one constructor per issue shape with its payload. -/
inductive VIssue where
  | critical
  | invalid_table_type (table_type : List Char)
  | missing_required_field (service_id : Option (List Char)) (field : List Char)
  | description_too_long (service_id : Option (List Char)) (length max_length : ℕ)
  | invalid_frequency (service_id : Option (List Char)) (frequency : Option (List Char))
deriving DecidableEq

/-- Service record as a mapping from field name to string value.  The
validators read string-valued fields (`service_id`, `description`,
`frequency`) and test only the presence of the `rates`/`rate` keys, so a
rate entry is represented by its key with any value; Python falsiness of a
present value is emptiness of the string. -/
abbrev SvcRec := List (List Char × List Char)

/-- Embedding of `service.get(field)` (`None` when the key is absent). -/
def svcGet (svc : SvcRec) (k : List Char) : Option (List Char) :=
  (svc.find? fun p => p.1 == k).map fun p => p.2

/-- Embedding of `Validator._validate_service` (`src/src/validator.py`):
returns the appended errors and warnings, in source append order. -/
def validate_service (rules : VRules) (service : SvcRec) :
    List VIssue × List VIssue :=
  let sid := svcGet service "service_id".data
  let req_errors := rules.required_fields.filterMap fun field =>
    match svcGet service field with
    | none => some (VIssue.missing_required_field sid field)
    | some v => if v.isEmpty then some (VIssue.missing_required_field sid field)
        else none
  let desc := (svcGet service "description".data).getD []
  let desc_warnings :=
    if rules.max_description_length < desc.length then
      [VIssue.description_too_long sid desc.length rules.max_description_length]
    else []
  let freq_errors :=
    match svcGet service "frequency".data with
    | none => [VIssue.invalid_frequency sid none]
    | some f =>
      if rules.valid_frequencies.contains f then []
      else [VIssue.invalid_frequency sid (some f)]
  (req_errors ++ freq_errors, desc_warnings)

/-- Transformed table as passed to the validator: the list of its service
records (`table_data.get("services", [])`). -/
abbrev TableData := List SvcRec

/-- The report dictionary built by `Validator._generate_report`. -/
structure VReport where
  status : List Char
  total_errors : ℕ
  total_warnings : ℕ
  errors : List VIssue
  warnings : List VIssue

/-- Embedding of `Validator._generate_report` (`src/src/validator.py`). -/
def generate_report (errors warnings : List VIssue) : VReport :=
  ⟨if errors ≠ [] then "failed".data
    else if warnings ≠ [] then "passed_with_warnings".data
    else "passed".data,
    errors.length, warnings.length, errors, warnings⟩

/-- Embedding of `Validator.validate` with `_validate_table`
(`src/src/validator.py`).  The input models the `data` argument: `none`
embeds a falsy value or a dictionary without the `tables` key, `some
tables` the table-type-to-table mapping in insertion order. -/
def validate (rules : VRules) (data : Option (List (List Char × TableData))) :
    VReport :=
  match data with
  | none => generate_report [VIssue.critical] []
  | some tables =>
    let acc := tables.foldl
      (fun (acc : List VIssue × List VIssue) tt =>
        let table_warnings :=
          if rules.valid_table_types.contains tt.1 then []
          else [VIssue.invalid_table_type tt.1]
        let svc := tt.2.foldl
          (fun (a : List VIssue × List VIssue) service =>
            let r := validate_service rules service
            (a.1 ++ r.1, a.2 ++ r.2))
          ([], [])
        (acc.1 ++ svc.1, acc.2 ++ table_warnings ++ svc.2))
      ([], [])
    generate_report acc.1 acc.2

/-- Issues recorded by `ETLPipeline._validate_data` in `src/main.py`
(message strings in the source; the embedding keeps the structured
content of each message). -/
inductive MIssue where
  | missing_tables
  | unknown_table_type (table_type : List Char)
  | missing_required_field (service_id : List Char) (field : List Char)
  | missing_rate_information (service_id : List Char)
  | invalid_frequency (service_id : List Char) (frequency : List Char)
  | description_too_long (service_id : List Char) (length : ℕ)
deriving DecidableEq

/-- The report dictionary of `ETLPipeline._validate_data`; `stats` is
`none` on the early missing-tables return, which leaves the initial empty
dictionary in place. -/
structure MReport where
  status : List Char
  errors : List MIssue
  warnings : List MIssue
  stats : Option (ℕ × ℕ)

/-- Embedding of `ETLPipeline._validate_service` (`src/main.py`): unlike
the `Validator` variant it only checks key presence for required fields,
requires one of the `rates`/`rate` keys, only validates a truthy
frequency, and records an over-long description as an error. -/
def m_validate_service (service : SvcRec) (index : ℕ) : List MIssue :=
  let service_id := (svcGet service "service_id".data).getD
    ("service_".data ++ Nat.toDigits 10 index)
  let req := VALIDATION_RULES.required_fields.filterMap fun field =>
    match svcGet service field with
    | none => some (MIssue.missing_required_field service_id field)
    | some _ => none
  let rate_info :=
    if (svcGet service "rates".data).isNone && (svcGet service "rate".data).isNone then
      [MIssue.missing_rate_information service_id]
    else []
  let freq :=
    match svcGet service "frequency".data with
    | none => []
    | some f =>
      if f.isEmpty then []
      else if VALIDATION_RULES.valid_frequencies.contains f then []
      else [MIssue.invalid_frequency service_id f]
  let desc := (svcGet service "description".data).getD []
  let desc_err :=
    if VALIDATION_RULES.max_description_length < desc.length then
      [MIssue.description_too_long service_id desc.length]
    else []
  req ++ rate_info ++ freq ++ desc_err

/-- Embedding of `ETLPipeline._validate_data` (`src/main.py`): `none`
embeds a `transformed_data` without the `tables` key. -/
def m_validate_data (transformed_data : Option (List (List Char × TableData))) :
    MReport :=
  match transformed_data with
  | none => ⟨"failed".data, [MIssue.missing_tables], [], none⟩
  | some tables =>
    let warnings : List MIssue := tables.filterMap fun tt =>
      if VALIDATION_RULES.valid_table_types.contains tt.1 then none
      else some (MIssue.unknown_table_type tt.1)
    let errors : List MIssue := (tables.map fun tt =>
      (tt.2.enum.map fun isvc => m_validate_service isvc.2 isvc.1).flatten).flatten
    let status :=
      if errors ≠ [] then "failed".data
      else if warnings ≠ [] then "passed_with_warnings".data
      else "passed".data
    let total_services := (tables.map fun tt => tt.2.length).sum
    ⟨status, errors, warnings, some (tables.length, total_services)⟩

/-- The status chain `failed / passed_with_warnings / passed` is the
stated pure function of the two issue lists. -/
theorem status_chain_spec {α : Type} [DecidableEq α] (e w : List α) :
    ((if e ≠ [] then "failed".data
        else if w ≠ [] then "passed_with_warnings".data
        else "passed".data) = "failed".data ↔ e ≠ []) ∧
      ((if e ≠ [] then "failed".data
        else if w ≠ [] then "passed_with_warnings".data
        else "passed".data) = "passed_with_warnings".data ↔ e = [] ∧ w ≠ []) ∧
      ((if e ≠ [] then "failed".data
        else if w ≠ [] then "passed_with_warnings".data
        else "passed".data) = "passed".data ↔ e = [] ∧ w = []) := by
  by_cases he : e = [] <;> by_cases hw : w = [] <;> simp [he, hw]

/-- Claim C7: in both validator implementations the report status is a
pure function of the collected issues: any error yields `failed`, else any
warning yields `passed_with_warnings`, else `passed`. -/
theorem claim_C7_status_from_issues :
    (∀ (rules : VRules) (data : Option (List (List Char × TableData))),
        ((validate rules data).status = "failed".data ↔
          (validate rules data).errors ≠ []) ∧
        ((validate rules data).status = "passed_with_warnings".data ↔
          (validate rules data).errors = [] ∧ (validate rules data).warnings ≠ []) ∧
        ((validate rules data).status = "passed".data ↔
          (validate rules data).errors = [] ∧ (validate rules data).warnings = [])) ∧
      (∀ transformed_data : Option (List (List Char × TableData)),
        ((m_validate_data transformed_data).status = "failed".data ↔
          (m_validate_data transformed_data).errors ≠ []) ∧
        ((m_validate_data transformed_data).status = "passed_with_warnings".data ↔
          (m_validate_data transformed_data).errors = [] ∧
            (m_validate_data transformed_data).warnings ≠ []) ∧
        ((m_validate_data transformed_data).status = "passed".data ↔
          (m_validate_data transformed_data).errors = [] ∧
            (m_validate_data transformed_data).warnings = [])) := by
  constructor
  · intro rules data
    cases data with
    | none =>
      unfold validate generate_report
      exact status_chain_spec [VIssue.critical] []
    | some tables =>
      unfold validate generate_report
      exact status_chain_spec _ _
  · intro transformed_data
    cases transformed_data with
    | none => exact ⟨by decide, by decide, by decide⟩
    | some tables =>
      unfold m_validate_data
      exact status_chain_spec _ _

end PyEtl
